import Mathlib

/-!
Verification of the chat front end in `app.py` (repository Azerus96/Deepsonnet).

The Python module is shallowly embedded:
* the filesystem and the `mimetypes` database are an oracle record `FileSys`
  (`os.path.getsize`, `mimetypes.guess_type`, whole-file read);
* the process environment variable `ANTHROPIC_API_KEY` is an `Option String`;
* the remote completion endpoint is an oracle `List OutboundMsg → ApiOutcome`
  describing what `client.messages.create` would do for a given message list;
* Python exceptions are values of `PyExc` threaded through `Except`;
* byte strings are `List Nat` with every element below 256, and
  `base64.b64encode(..).decode("utf-8")` is an executable base64 encoder.

File sizes are modelled in bytes: the source compares
`getsize(p) / (1024*1024) > 10` with exact binary-float division by a power
of two, which holds exactly when `getsize p > 10 * 1024 * 1024` over the
integers, so the embedding compares bytes directly.
-/

/-- Constants from the top of `app.py`. -/
def MAX_FILE_SIZE_MB : Nat := 10

def MAX_TOKENS : Nat := 8192

def ALLOWED_MIME_TYPES : List String :=
  ["text/", "image/", "application/pdf", "application/json", "application/msword"]

/-- Python `str.startswith`: a prefix test on the sequence of characters.
Defined over `String.data` so that it evaluates by reduction. -/
def strStartsWith (s pre : String) : Bool :=
  pre.data.isPrefixOf s.data

instance {ε α : Type} [DecidableEq ε] [DecidableEq α] :
    DecidableEq (Except ε α) := fun x y =>
  match x, y with
  | .ok a, .ok b =>
    if h : a = b then .isTrue (by rw [h])
    else .isFalse (fun he => by cases he; exact h rfl)
  | .error a, .error b =>
    if h : a = b then .isTrue (by rw [h])
    else .isFalse (fun he => by cases he; exact h rfl)
  | .ok _, .error _ => .isFalse (fun he => by cases he)
  | .error _, .ok _ => .isFalse (fun he => by cases he)

/-- Oracle for the filesystem and the `mimetypes` database:
`getsize` is `os.path.getsize` in bytes, `guessType` is
`mimetypes.guess_type` (first component), `readBytes` is the whole-file
binary read. -/
structure FileSys where
  getsize : String → Nat
  guessType : String → Option String
  readBytes : String → List Nat

/-- Python exceptions that flow through the module: `ValueError` raised by
`validate_file`, the `AttributeError` raised when `None.startswith` is
evaluated, and `gr.Error` (the user-facing wrapper). Messages produced by
the interpreter (the `AttributeError` text) are abstracted to a fixed
string without quote characters. -/
inductive PyExc where
  | valueError (msg : String)
  | attributeError (msg : String)
  | grError (msg : String)
deriving DecidableEq

/-- Python `str(e)` for the exceptions above: each carries its message. -/
def PyExc.str : PyExc → String
  | .valueError m => m
  | .attributeError m => m
  | .grError m => m

/-- `validate_file(file_path)` from `app.py`.

```
file_size = os.path.getsize(file_path) / (1024 * 1024)
if file_size > MAX_FILE_SIZE_MB: raise ValueError(...)
mime_type, _ = mimetypes.guess_type(file_path)
if not any(mime_type.startswith(allowed) for allowed in ALLOWED_MIME_TYPES):
    raise ValueError(...)
```

When `guess_type` yields `None`, evaluating the generator inside `any`
calls `None.startswith` and raises `AttributeError` (the allow set is
nonempty), not `ValueError`. -/
def validate_file (fs : FileSys) (file_path : String) : Except PyExc Unit :=
  if fs.getsize file_path > MAX_FILE_SIZE_MB * 1024 * 1024 then
    .error (.valueError "File size exceeds 10MB limit")
  else
    match fs.guessType file_path with
    | none => .error (.attributeError "NoneType object has no attribute startswith")
    | some mime_type =>
      if ALLOWED_MIME_TYPES.any (fun allowed => strStartsWith mime_type allowed) then
        .ok ()
      else
        .error (.valueError ("Unsupported file type: " ++ mime_type))

/-- The 64-character base64 alphabet, indexed 0..63. -/
def b64Char (n : Nat) : Char :=
  if n < 26 then Char.ofNat (65 + n)
  else if n < 52 then Char.ofNat (97 + (n - 26))
  else if n < 62 then Char.ofNat (48 + (n - 52))
  else if n = 62 then Char.ofNat 43
  else Char.ofNat 47

/-- Inverse of the base64 alphabet; `none` on characters outside it
(in particular on the padding character). -/
def b64Val (c : Char) : Option Nat :=
  let n := c.toNat
  if 65 ≤ n ∧ n ≤ 90 then some (n - 65)
  else if 97 ≤ n ∧ n ≤ 122 then some (26 + (n - 97))
  else if 48 ≤ n ∧ n ≤ 57 then some (52 + (n - 48))
  else if n = 43 then some 62
  else if n = 47 then some 63
  else none

/-- RFC 4648 base64 encoding of a byte list (values below 256), with
padding, as performed by `base64.b64encode`. -/
def b64EncodeBytes : List Nat → List Char
  | b0 :: b1 :: b2 :: rest =>
      b64Char (b0 / 4) ::
      b64Char ((b0 % 4) * 16 + b1 / 16) ::
      b64Char ((b1 % 16) * 4 + b2 / 64) ::
      b64Char (b2 % 64) ::
      b64EncodeBytes rest
  | [b0, b1] =>
      [b64Char (b0 / 4), b64Char ((b0 % 4) * 16 + b1 / 16),
       b64Char ((b1 % 16) * 4), '=']
  | [b0] =>
      [b64Char (b0 / 4), b64Char ((b0 % 4) * 16), '=', '=']
  | [] => []

/-- Base64 decoding of a character list; padding is detected through
`b64Val` returning `none`. Junk input decodes to junk, which is harmless
for the round-trip statement. -/
def b64DecodeChars : List Char → List Nat
  | c0 :: c1 :: c2 :: c3 :: rest =>
      let v0 := (b64Val c0).getD 0
      let v1 := (b64Val c1).getD 0
      match b64Val c2, b64Val c3 with
      | none, _ => [v0 * 4 + v1 / 16]
      | some v2, none => [v0 * 4 + v1 / 16, (v1 % 16) * 16 + v2 / 4]
      | some v2, some v3 =>
          (v0 * 4 + v1 / 16) :: ((v1 % 16) * 16 + v2 / 4) ::
          ((v2 % 4) * 64 + v3) :: b64DecodeChars rest
  | _ => []

/-- `base64.b64encode(data).decode("utf-8")`. -/
def b64encode (data : List Nat) : String := ⟨b64EncodeBytes data⟩

/-- `base64.b64decode` on the strings this module produces. -/
def b64decode (s : String) : List Nat := b64DecodeChars s.data

/-- The two message roles used by the outbound request. -/
inductive Role where
  | user
  | assistant
deriving DecidableEq

/-- One entry of the `attachments` list built by `process_attachments`:
`{"type": "base64", "media_type": ..., "data": ...}`. -/
structure Attachment where
  type : String
  media_type : String
  data : String
deriving DecidableEq

/-- One dict of the outbound `messages` list. Only the dict built for the
new input carries an `attachments` key; `none` models its absence. -/
structure OutboundMsg where
  role : Role
  content : String
  attachments : Option (List Attachment)
deriving DecidableEq

/-- `process_attachments(files)` from `app.py`. Each Gradio file object is
represented by its `.name` path. Besides the Python return value (or the
exception), the embedding returns the list of file paths whose loop
iteration was entered, i.e. the files on which `validate_file` was called:
the source logs and processes files strictly in input order and the first
exception aborts the loop, which the log makes observable.

Any exception raised inside the loop body is caught and re-raised as
`gr.Error(f"File error: {str(e)}")`. -/
def process_attachments (fs : FileSys) :
    List String → Except PyExc (List Attachment) × List String
  | [] => (.ok [], [])
  | f :: rest =>
    match validate_file fs f with
    | .error e => (.error (.grError ("File error: " ++ PyExc.str e)), [f])
    | .ok _ =>
      let mime_type := fs.guessType f
      let file_data := fs.readBytes f
      let att : Attachment :=
        { type := "base64"
          media_type := mime_type.getD "application/octet-stream"
          data := b64encode file_data }
      match process_attachments fs rest with
      | (.error e, log) => (.error e, f :: log)
      | (.ok atts, log) => (.ok (att :: atts), f :: log)

/-- The `messages` list built inside `chat_with_claude`: the new user
message (with the attachments) first, then, iterating `history` in order,
a user dict followed by an assistant dict per turn. The `if history:`
guard of the source is behaviourally the empty loop on `[]`. -/
def buildMessages (message : String) (history : List (String × String))
    (attachments : List Attachment) : List OutboundMsg :=
  { role := .user, content := message, attachments := some attachments } ::
    (history.map fun p =>
      [{ role := .user, content := p.1, attachments := none },
       { role := .assistant, content := p.2, attachments := none }]).flatten

/-- What the remote endpoint does for one request: the oracle covering
`client.messages.create`. `success text` is a reply whose first content
block holds `text`; the error constructors correspond to
`APIConnectionError`, `RateLimitError`, `APIStatusError` (with the
parseable remote message, if any) and any other exception. -/
inductive ApiOutcome where
  | success (text : String)
  | connectionError
  | rateLimit
  | statusError (status_code : Nat) (remoteMsg : Option String)
  | otherError (msg : String)
deriving DecidableEq

/-- Result of one `chat_with_claude` call: the returned string or the
raised exception, together with the outbound message lists of the network
calls actually issued and the file paths handed to `validate_file`. -/
structure ChatResult where
  result : Except PyExc String
  netCalls : List (List OutboundMsg)
  filesSeen : List String

/-- `chat_with_claude(message, history, files)` from `app.py`.

`env` is `os.getenv("ANTHROPIC_API_KEY")`; `if not api_key` is true for an
absent variable and for the empty string. The config failure is raised
outside the `try`, so it propagates as the `gr.Error` built there.

Inside the `try`: a `gr.Error` escaping `process_attachments` is not one
of the three API exception classes, so it is caught by the final
`except Exception` clause and re-raised as
`gr.Error(f"Unexpected error: {str(e)}")`; no network call happens. On a
clean attachment pass, exactly one request is issued and its outcome is
mapped to the returned text or to the classified `gr.Error` strings of the
four `except` clauses. -/
def chat_with_claude (env : Option String) (fs : FileSys)
    (api : List OutboundMsg → ApiOutcome) (message : String)
    (history : List (String × String)) (files : List String) : ChatResult :=
  match env with
  | none =>
    { result := .error (.grError "Configuration error: API key missing")
      netCalls := [], filesSeen := [] }
  | some api_key =>
    if api_key = "" then
      { result := .error (.grError "Configuration error: API key missing")
        netCalls := [], filesSeen := [] }
    else
      match process_attachments fs files with
      | (.error e, log) =>
        { result := .error (.grError ("Unexpected error: " ++ PyExc.str e))
          netCalls := [], filesSeen := log }
      | (.ok attachments, log) =>
        let messages := buildMessages message history attachments
        match api messages with
        | .success text =>
          { result := .ok text, netCalls := [messages], filesSeen := log }
        | .connectionError =>
          { result := .error (.grError
              "Connection error: Please check your internet connection")
            netCalls := [messages], filesSeen := log }
        | .rateLimit =>
          { result := .error (.grError
              "Rate limit exceeded: Please wait before sending new messages")
            netCalls := [messages], filesSeen := log }
        | .statusError _ remoteMsg =>
          { result := .error (.grError
              ("API error: " ++ remoteMsg.getD "Unknown error"))
            netCalls := [messages], filesSeen := log }
        | .otherError msg =>
          { result := .error (.grError ("Unexpected error: " ++ msg))
            netCalls := [messages], filesSeen := log }

/-- `handle_chat(message, history, files)` from `app.py`: every exception
from `chat_with_claude` is caught and recorded as
`f"Error: {str(e)}"`; either way the pair `(history + [(message, text)], [])`
is returned, `history` itself untouched. -/
def handle_chat (env : Option String) (fs : FileSys)
    (api : List OutboundMsg → ApiOutcome) (message : String)
    (history : List (String × String)) (files : List String) :
    List (String × String) × List String :=
  match (chat_with_claude env fs api message history files).result with
  | .ok response => (history ++ [(message, response)], [])
  | .error e => (history ++ [(message, "Error: " ++ PyExc.str e)], [])

/-- The history part of the outbound list (everything after the new user
message); `buildMessages m h a` is definitionally the new user message
consed onto `histPart h`. Proof-side abbreviation. -/
def histPart (history : List (String × String)) : List OutboundMsg :=
  (history.map fun p =>
    [{ role := .user, content := p.1, attachments := none },
     { role := .assistant, content := p.2, attachments := none }]).flatten

/-- Whether a `validate_file` outcome is a raised `ValueError`
(the concrete class behind the specified ValidationError). -/
def isValueError : Except PyExc Unit → Bool
  | .error (.valueError _) => true
  | _ => false

/-- Fixture: a 1-byte readable file of exactly 10 MB that the `mimetypes`
database resolves to `text/plain`. -/
def fsAtCap : FileSys :=
  ⟨fun _ => 10 * 1024 * 1024, fun _ => some "text/plain", fun _ => [104]⟩

/-- Fixture: a file one byte over 10 MB with an unresolvable MIME type. -/
def fsOver : FileSys :=
  ⟨fun _ => 10 * 1024 * 1024 + 1, fun _ => none, fun _ => [104]⟩

/-- Fixture: a tiny file whose MIME type the database cannot resolve. -/
def fsNoMime : FileSys :=
  ⟨fun _ => 0, fun _ => none, fun _ => []⟩

/-- Fixture: every file is tiny, readable as the two bytes `hi`, and
resolves to `text/plain`, except paths named `"bad.xyz"`, which resolve to
`application/zip` (not in the allow set). -/
def fsMixed : FileSys :=
  ⟨fun _ => 2,
   fun p => if p = "bad.xyz" then some "application/zip" else some "text/plain",
   fun _ => [104, 105]⟩

/-- Fixture API oracle answering every request with an empty reply text. -/
def apiEmptyText : List OutboundMsg → ApiOutcome := fun _ => .success ""

/-- Fixture API oracle that always reports a connection failure. -/
def apiDown : List OutboundMsg → ApiOutcome := fun _ => .connectionError

theorem b64Val_b64Char : ∀ n < 64, b64Val (b64Char n) = some n := by decide

theorem b64Val_pad : b64Val '=' = none := by decide

/-- Decoding inverts encoding on genuine byte lists. -/
theorem b64_roundtrip : ∀ data : List Nat, (∀ b ∈ data, b < 256) →
    b64DecodeChars (b64EncodeBytes data) = data := by
  intro data
  induction data using b64EncodeBytes.induct with
  | case1 b0 b1 b2 rest ih =>
      intro h
      have hb0 : b0 < 256 := h b0 (by simp)
      have hb1 : b1 < 256 := h b1 (by simp)
      have hb2 : b2 < 256 := h b2 (by simp)
      have h0 : b64Val (b64Char (b0 / 4)) = some (b0 / 4) :=
        b64Val_b64Char _ (by omega)
      have h1 : b64Val (b64Char ((b0 % 4) * 16 + b1 / 16)) =
          some ((b0 % 4) * 16 + b1 / 16) :=
        b64Val_b64Char _ (by omega)
      have h2 : b64Val (b64Char ((b1 % 16) * 4 + b2 / 64)) =
          some ((b1 % 16) * 4 + b2 / 64) :=
        b64Val_b64Char _ (by omega)
      have h3 : b64Val (b64Char (b2 % 64)) = some (b2 % 64) :=
        b64Val_b64Char _ (by omega)
      have hrest := ih (fun b hb => h b (by simp [hb]))
      simp only [b64EncodeBytes, b64DecodeChars, h0, h1, h2, h3,
        Option.getD_some, hrest, List.cons.injEq, and_true]
      refine ⟨by omega, by omega, by omega⟩
  | case2 b0 b1 =>
      intro h
      have hb0 : b0 < 256 := h b0 (by simp)
      have hb1 : b1 < 256 := h b1 (by simp)
      have h0 : b64Val (b64Char (b0 / 4)) = some (b0 / 4) :=
        b64Val_b64Char _ (by omega)
      have h1 : b64Val (b64Char ((b0 % 4) * 16 + b1 / 16)) =
          some ((b0 % 4) * 16 + b1 / 16) :=
        b64Val_b64Char _ (by omega)
      have h2 : b64Val (b64Char ((b1 % 16) * 4)) = some ((b1 % 16) * 4) :=
        b64Val_b64Char _ (by omega)
      simp only [b64EncodeBytes, b64DecodeChars, h0, h1, h2, b64Val_pad,
        Option.getD_some, List.cons.injEq, and_true]
      refine ⟨by omega, by omega⟩
  | case3 b0 =>
      intro h
      have hb0 : b0 < 256 := h b0 (by simp)
      have h0 : b64Val (b64Char (b0 / 4)) = some (b0 / 4) :=
        b64Val_b64Char _ (by omega)
      have h1 : b64Val (b64Char ((b0 % 4) * 16)) = some ((b0 % 4) * 16) :=
        b64Val_b64Char _ (by omega)
      simp only [b64EncodeBytes, b64DecodeChars, h0, h1, b64Val_pad,
        Option.getD_some, List.cons.injEq, and_true]
      omega
  | case4 =>
      intro _
      rfl

theorem buildMessages_eq (message : String) (history : List (String × String))
    (attachments : List Attachment) :
    buildMessages message history attachments =
      { role := .user, content := message, attachments := some attachments } ::
        histPart history := rfl

theorem histPart_cons (u b : String) (t : List (String × String)) :
    histPart ((u, b) :: t) =
      { role := .user, content := u, attachments := none } ::
      { role := .assistant, content := b, attachments := none } ::
      histPart t := rfl

theorem histPart_length (history : List (String × String)) :
    (histPart history).length = 2 * history.length := by
  induction history with
  | nil => rfl
  | cons p t ih =>
    obtain ⟨u, b⟩ := p
    rw [histPart_cons]
    simp [ih]
    omega

theorem histPart_getElem? (history : List (String × String)) :
    ∀ i, i < history.length → ∃ u b, history[i]? = some (u, b) ∧
      (histPart history)[2 * i]? =
        some { role := .user, content := u, attachments := none } ∧
      (histPart history)[2 * i + 1]? =
        some { role := .assistant, content := b, attachments := none } := by
  induction history with
  | nil => intro i hi; simp at hi
  | cons p t ih =>
    intro i hi
    obtain ⟨u, b⟩ := p
    cases i with
    | zero => exact ⟨u, b, by simp [histPart_cons]⟩
    | succ j =>
      obtain ⟨u2, b2, hj, hu, hb⟩ := ih j (by simpa using hi)
      refine ⟨u2, b2, by simpa using hj, ?_, ?_⟩
      · rw [histPart_cons]
        have : 2 * (j + 1) = (2 * j) + 1 + 1 := by omega
        rw [this]
        simpa using hu
      · rw [histPart_cons]
        have : 2 * (j + 1) + 1 = (2 * j + 1) + 1 + 1 := by omega
        rw [this]
        simpa using hb

theorem histPart_attachments_none (history : List (String × String)) :
    ∀ x ∈ histPart history, x.attachments = none := by
  induction history with
  | nil => intro x hx; simp [histPart] at hx
  | cons p t ih =>
    obtain ⟨u, b⟩ := p
    intro x hx
    rw [histPart_cons] at hx
    simp only [List.mem_cons] at hx
    rcases hx with h | h | h
    · rw [h]
    · rw [h]
    · exact ih x h

/-- Inversion of a successful validation: the size is within the cap and
the guessed MIME type exists and has an allow-listed prefix. -/
theorem validate_file_ok_inv (fs : FileSys) (p : String)
    (h : validate_file fs p = .ok ()) :
    fs.getsize p ≤ MAX_FILE_SIZE_MB * 1024 * 1024 ∧
    ∃ m, fs.guessType p = some m ∧
      ALLOWED_MIME_TYPES.any (fun allowed => strStartsWith m allowed) = true := by
  unfold validate_file at h
  split at h
  · exact absurd h (by simp)
  · next hsize =>
    refine ⟨by omega, ?_⟩
    split at h
    · exact absurd h (by simp)
    · next m hm =>
      refine ⟨m, hm, ?_⟩
      split at h
      · assumption
      · exact absurd h (by simp)

theorem histPart_getElem?_attachments (history : List (String × String)) :
    ∀ (i : Nat) (x : OutboundMsg), (histPart history)[i]? = some x →
      x.attachments = none := by
  induction history with
  | nil => intro i x hx; simp [histPart] at hx
  | cons p t ih =>
    obtain ⟨u, b⟩ := p
    intro i x hx
    rw [histPart_cons] at hx
    cases i with
    | zero => simp at hx; rw [← hx]
    | succ i1 =>
      cases i1 with
      | zero => simp at hx; rw [← hx]
      | succ n =>
        rw [List.getElem?_cons_succ, List.getElem?_cons_succ] at hx
        exact ih n x hx

/-- C1 (amended), theorem: for every message, history and attachment list,
the outbound list has length `2 * |history| + 1`; its head is the single
user message for the new input and is the only entry carrying the
attachments key; entries `2i+1` and `2i+2` are the user/assistant pair of
history turn `i`. -/
theorem buildMessages_single_new_user_with_attachments (message : String)
    (history : List (String × String)) (attachments : List Attachment) :
    (buildMessages message history attachments).length = 2 * history.length + 1 ∧
    (buildMessages message history attachments)[0]? =
      some { role := .user, content := message, attachments := some attachments } ∧
    (∀ (i : Nat) (x : OutboundMsg),
      (buildMessages message history attachments)[i + 1]? = some x →
      x.attachments = none) ∧
    ∀ i, i < history.length → ∃ u b, history[i]? = some (u, b) ∧
      (buildMessages message history attachments)[2 * i + 1]? =
        some { role := .user, content := u, attachments := none } ∧
      (buildMessages message history attachments)[2 * i + 2]? =
        some { role := .assistant, content := b, attachments := none } := by
  refine ⟨?_, ?_, ?_, ?_⟩
  · rw [buildMessages_eq]
    simp [histPart_length]
  · rw [buildMessages_eq]
    simp
  · intro i x hx
    rw [buildMessages_eq, List.getElem?_cons_succ] at hx
    exact histPart_getElem?_attachments history i x hx
  · intro i hi
    obtain ⟨u, b, hub, hu, hb⟩ := histPart_getElem? history i hi
    refine ⟨u, b, hub, ?_, ?_⟩
    · rw [buildMessages_eq, List.getElem?_cons_succ]
      exact hu
    · have he : 2 * i + 2 = (2 * i + 1) + 1 := by omega
      rw [buildMessages_eq, he, List.getElem?_cons_succ]
      exact hb

/-- C1, counterexample: with a single prior turn the outbound list ends in
the assistant message of that turn, not in the new user input, so there is
no trailing user message carrying the attachments. -/
theorem buildMessages_trailing_user_refuted :
    (buildMessages "hi" [("u", "b")] []).getLast? =
      some { role := .assistant, content := "b", attachments := none } ∧
    (buildMessages "hi" [("u", "b")] []).getLast? ≠
      some { role := .user, content := "hi", attachments := some [] } := by
  decide

/-- C1 (amended), witness at `message = "hi"`, one history turn, no
attachments. -/
theorem buildMessages_single_new_user_with_attachments_witness :
    ∃ u b, ([("u", "b")] : List (String × String))[0]? = some (u, b) ∧
      (buildMessages "hi" [("u", "b")] [])[2 * 0 + 1]? =
        some { role := .user, content := u, attachments := none } ∧
      (buildMessages "hi" [("u", "b")] [])[2 * 0 + 2]? =
        some { role := .assistant, content := b, attachments := none } :=
  (buildMessages_single_new_user_with_attachments "hi" [("u", "b")] []).2.2.2
    0 (by decide)

/-- C8: the outbound list starts with the new user message (text plus
attachments) and then, for history turn `i` taken oldest first, carries
that turn's user message at position `2i+1` immediately followed by its
assistant message at position `2i+2`, which exhausts the list. -/
theorem buildMessages_new_first_then_history (message : String)
    (history : List (String × String)) (attachments : List Attachment) :
    (buildMessages message history attachments)[0]? =
      some { role := .user, content := message, attachments := some attachments } ∧
    (buildMessages message history attachments).length = 2 * history.length + 1 ∧
    ∀ i, i < history.length → ∃ u b, history[i]? = some (u, b) ∧
      (buildMessages message history attachments)[2 * i + 1]? =
        some { role := .user, content := u, attachments := none } ∧
      (buildMessages message history attachments)[2 * i + 2]? =
        some { role := .assistant, content := b, attachments := none } := by
  obtain ⟨hlen, hhead, -, hpairs⟩ :=
    buildMessages_single_new_user_with_attachments message history attachments
  exact ⟨hhead, hlen, hpairs⟩

/-- C8, witness at `message = "hi"`, one history turn, no attachments. -/
theorem buildMessages_new_first_then_history_witness :
    ∃ u b, ([("x", "y")] : List (String × String))[0]? = some (u, b) ∧
      (buildMessages "hi" [("x", "y")] [])[2 * 0 + 1]? =
        some { role := .user, content := u, attachments := none } ∧
      (buildMessages "hi" [("x", "y")] [])[2 * 0 + 2]? =
        some { role := .assistant, content := b, attachments := none } :=
  (buildMessages_new_first_then_history "hi" [("x", "y")] []).2.2 0 (by decide)

/-- C2: `handle_chat` is total on its embedded inputs and always returns
the old history with exactly one appended turn and the cleared file list;
the appended assistant-side string is the success text when the dispatch
succeeded and `"Error: " ++ str(e)` of the caught exception otherwise. -/
theorem handle_chat_appends_one_turn (env : Option String) (fs : FileSys)
    (api : List OutboundMsg → ApiOutcome) (message : String)
    (history : List (String × String)) (files : List String) :
    ∃ s, handle_chat env fs api message history files =
        (history ++ [(message, s)], []) ∧
      ((chat_with_claude env fs api message history files).result = .ok s ∨
        ∃ e, (chat_with_claude env fs api message history files).result =
            .error e ∧ s = "Error: " ++ PyExc.str e) := by
  rcases h : (chat_with_claude env fs api message history files).result with e | t
  · exact ⟨"Error: " ++ PyExc.str e, by simp [handle_chat, h], .inr ⟨e, rfl, rfl⟩⟩
  · exact ⟨t, by simp [handle_chat, h], .inl rfl⟩

/-- C3, counterexample: a file of exactly 10 MB (the threshold) with an
allow-listed type passes validation, because the source compares with a
strict `>`; the claim demands failure at the threshold. -/
theorem validate_at_threshold_passes :
    fsAtCap.getsize "f.txt" = MAX_FILE_SIZE_MB * 1024 * 1024 ∧
    validate_file fsAtCap "f.txt" = .ok () := by decide

/-- C3 (amended), theorem: every file strictly larger than the threshold
fails validation with the `ValueError` about the size, whatever its MIME
type resolves to (the type is never consulted). -/
theorem validate_file_oversize (fs : FileSys) (p : String)
    (h : MAX_FILE_SIZE_MB * 1024 * 1024 < fs.getsize p) :
    validate_file fs p = .error (.valueError "File size exceeds 10MB limit") := by
  simp [validate_file, h]

/-- C3 (amended), witness: one byte over the cap, unresolvable MIME type. -/
theorem validate_file_oversize_witness :
    MAX_FILE_SIZE_MB * 1024 * 1024 < fsOver.getsize "f.bin" ∧
    validate_file fsOver "f.bin" =
      .error (.valueError "File size exceeds 10MB limit") :=
  ⟨by decide, validate_file_oversize fsOver "f.bin" (by decide)⟩

/-- C4, counterexample: a tiny file whose MIME type cannot be resolved is
rejected with an `AttributeError` (from `None.startswith`), not with the
`ValueError` standing behind the specified ValidationError. -/
theorem validate_unresolved_mime_not_valueError :
    validate_file fsNoMime "f.xyz" =
      .error (.attributeError "NoneType object has no attribute startswith") ∧
    isValueError (validate_file fsNoMime "f.xyz") = false := by decide

/-- C4 (amended), theorem: for a file within the size cap, an inferred
type whose prefix is outside the allow set raises the `ValueError`, while
an unresolvable type raises `AttributeError`; both reject the file. -/
theorem validate_file_bad_mime (fs : FileSys) (p : String)
    (hsize : fs.getsize p ≤ MAX_FILE_SIZE_MB * 1024 * 1024) :
    (fs.guessType p = none →
      validate_file fs p =
        .error (.attributeError "NoneType object has no attribute startswith")) ∧
    ∀ mt, fs.guessType p = some mt →
      ALLOWED_MIME_TYPES.any (fun allowed => strStartsWith mt allowed) = false →
      validate_file fs p = .error (.valueError ("Unsupported file type: " ++ mt)) := by
  have hlt : ¬ MAX_FILE_SIZE_MB * 1024 * 1024 < fs.getsize p := by omega
  constructor
  · intro hnone
    simp [validate_file, hlt, hnone]
  · intro mt hmt hany
    simp [validate_file, hlt, hmt, hany]

/-- C4 (amended), witness: the unresolvable-type branch at a concrete
filesystem. -/
theorem validate_file_bad_mime_witness :
    validate_file fsNoMime "f.xyz" =
      .error (.attributeError "NoneType object has no attribute startswith") :=
  (validate_file_bad_mime fsNoMime "f.xyz" (by decide)).1 (by decide)

theorem chat_netCalls_nil_of_error (fs : FileSys) (files : List String)
    (key : String) (api : List OutboundMsg → ApiOutcome) (message : String)
    (history : List (String × String)) (e : PyExc)
    (hp : (process_attachments fs files).1 = .error e) :
    (chat_with_claude (some key) fs api message history files).netCalls = [] := by
  unfold chat_with_claude
  by_cases hk : key = ""
  · simp [hk]
  · rcases hpr : process_attachments fs files with ⟨res, log⟩
    rw [hpr] at hp
    simp only at hp
    subst hp
    simp [hk, hpr]

/-- C5: if the files at indices before `i` validate and the file at `i`
fails, then exactly the files up to and including `i` enter the processing
loop (in input order), `process_attachments` raises the wrapped error of
file `i`, and `chat_with_claude` issues no network call on these files. -/
theorem process_first_failure_short_circuit (fs : FileSys)
    (files : List String) (i : Nat) (fi : String) (e : PyExc)
    (hfi : files[i]? = some fi)
    (hfail : validate_file fs fi = .error e)
    (hok : ∀ (j : Nat) (f : String), j < i → files[j]? = some f →
      validate_file fs f = .ok ()) :
    (process_attachments fs files).2 = files.take (i + 1) ∧
    (process_attachments fs files).1 =
      .error (.grError ("File error: " ++ PyExc.str e)) ∧
    ∀ key api message history,
      (chat_with_claude (some key) fs api message history files).netCalls = [] := by
  have hmain : (process_attachments fs files).2 = files.take (i + 1) ∧
      (process_attachments fs files).1 =
        .error (.grError ("File error: " ++ PyExc.str e)) := by
    induction files generalizing i with
    | nil => simp at hfi
    | cons f rest ih =>
      cases i with
      | zero =>
        simp only [List.getElem?_cons_zero, Option.some.injEq] at hfi
        subst hfi
        constructor
        · simp [process_attachments, hfail]
        · simp [process_attachments, hfail]
      | succ j =>
        have h0 : validate_file fs f = .ok () := hok 0 f (by omega) (by simp)
        have hfi2 : rest[j]? = some fi := by simpa using hfi
        have hok2 : ∀ (k : Nat) (g : String), k < j → rest[k]? = some g →
            validate_file fs g = .ok () := by
          intro k g hk hkg
          exact hok (k + 1) g (by omega) (by simpa using hkg)
        obtain ⟨hlog, herr⟩ := ih j hfi2 hok2
        rcases hpr : process_attachments fs rest with ⟨res, log⟩
        rw [hpr] at herr hlog
        simp only at herr hlog
        subst herr
        constructor
        · simp [process_attachments, h0, hpr, hlog]
        · simp [process_attachments, h0, hpr]
  refine ⟨hmain.1, hmain.2, ?_⟩
  intro key api message history
  exact chat_netCalls_nil_of_error fs files key api message history _ hmain.2

/-- C5, witness: three files of which the second resolves to a
non-allow-listed type; only the first two are processed and no request is
issued. -/
theorem process_first_failure_short_circuit_witness :
    (process_attachments fsMixed ["a.txt", "bad.xyz", "c.txt"]).2 =
      (["a.txt", "bad.xyz", "c.txt"] : List String).take (1 + 1) ∧
    (process_attachments fsMixed ["a.txt", "bad.xyz", "c.txt"]).1 =
      .error (.grError ("File error: " ++
        PyExc.str (.valueError ("Unsupported file type: " ++ "application/zip")))) ∧
    ∀ key api message history,
      (chat_with_claude (some key) fsMixed api message history
        ["a.txt", "bad.xyz", "c.txt"]).netCalls = [] :=
  process_first_failure_short_circuit fsMixed ["a.txt", "bad.xyz", "c.txt"] 1
    "bad.xyz" (.valueError ("Unsupported file type: " ++ "application/zip"))
    (by decide) (by decide)
    (by
      intro j g hj hg
      have hj0 : j = 0 := by omega
      subst hj0
      simp only [List.getElem?_cons_zero, Option.some.injEq] at hg
      subst hg
      decide)

/-- C6: when every file validates and reads as genuine bytes, processing
succeeds with one attachment per file, and each attachment's base64 data
decodes back to exactly the file's bytes. -/
theorem process_attachments_roundtrip (fs : FileSys) (files : List String)
    (hok : ∀ f ∈ files, validate_file fs f = .ok ())
    (hbytes : ∀ f ∈ files, ∀ b ∈ fs.readBytes f, b < 256) :
    ∃ atts, (process_attachments fs files).1 = .ok atts ∧
      atts.length = files.length ∧
      ∀ (i : Nat) (f : String), files[i]? = some f →
        ∃ a, atts[i]? = some a ∧ b64decode a.data = fs.readBytes f := by
  induction files with
  | nil =>
    refine ⟨[], rfl, rfl, ?_⟩
    intro i f hf
    simp at hf
  | cons f rest ih =>
    have h0 : validate_file fs f = .ok () := hok f (by simp)
    obtain ⟨atts, hres, hlen, hidx⟩ :=
      ih (fun g hg => hok g (by simp [hg])) (fun g hg => hbytes g (by simp [hg]))
    rcases hpr : process_attachments fs rest with ⟨res, log⟩
    rw [hpr] at hres
    simp only at hres
    subst hres
    refine ⟨{ type := "base64",
              media_type := (fs.guessType f).getD "application/octet-stream",
              data := b64encode (fs.readBytes f) } :: atts,
      ?_, by simp [hlen], ?_⟩
    · simp [process_attachments, h0, hpr]
    · intro i g hg
      cases i with
      | zero =>
        simp only [List.getElem?_cons_zero, Option.some.injEq] at hg
        subst hg
        refine ⟨{ type := "base64",
                  media_type := (fs.guessType f).getD "application/octet-stream",
                  data := b64encode (fs.readBytes f) }, by simp, ?_⟩
        show b64decode (b64encode (fs.readBytes f)) = fs.readBytes f
        exact b64_roundtrip _ (hbytes f (by simp))
      | succ j =>
        obtain ⟨a, ha, hdec⟩ := hidx j g (by simpa using hg)
        exact ⟨a, by simpa using ha, hdec⟩

/-- C6, witness: a single small `text/plain` file with bytes `hi`. -/
theorem process_attachments_roundtrip_witness :
    ∃ atts, (process_attachments fsMixed ["a.txt"]).1 = .ok atts ∧
      atts.length = (["a.txt"] : List String).length ∧
      ∀ (i : Nat) (f : String), (["a.txt"] : List String)[i]? = some f →
        ∃ a, atts[i]? = some a ∧ b64decode a.data = fsMixed.readBytes f :=
  process_attachments_roundtrip fsMixed ["a.txt"] (by decide) (by decide)

/-- C7: without the credential in the environment, `handle_chat` returns
the history extended by the turn whose assistant text is the configuration
error string (which begins with the specified message), and no request is
issued. -/
theorem handle_chat_missing_key (fs : FileSys)
    (api : List OutboundMsg → ApiOutcome) (message : String)
    (history : List (String × String)) (files : List String) :
    handle_chat none fs api message history files =
      (history ++ [(message, "Error: Configuration error: API key missing")], []) ∧
    (chat_with_claude none fs api message history files).netCalls = [] ∧
    strStartsWith "Error: Configuration error: API key missing"
      "Error: Configuration error" = true := by
  refine ⟨?_, rfl, by decide⟩
  show (history ++ [(message, "Error: " ++
      PyExc.str (.grError "Configuration error: API key missing"))], []) = _
  rfl

theorem error_string_ne_empty (t : String) : "Error: " ++ t ≠ "" := by
  intro h
  have h2 := congrArg String.data h
  simp [String.data_append] at h2

/-- C9, counterexample: when the remote reply's first content block holds
the empty string, the recorded turn's assistant side is the empty string,
so a successful turn can be recorded with empty assistant text. -/
theorem handle_chat_records_empty_success_text :
    handle_chat (some "k") fsMixed apiEmptyText "hi" [] [] = ([("hi", "")], []) ∧
    apiEmptyText (buildMessages "hi" [] []) = .success "" := by decide

/-- C9 (amended), theorem: every recorded turn carries the old history
plus one appended turn; on a failed dispatch the assistant text is the
non-empty string `"Error: " ++ str(e)`, and on success it is exactly the
remote reply text (empty only if the remote text is). -/
theorem handle_chat_recorded_text (env : Option String) (fs : FileSys)
    (api : List OutboundMsg → ApiOutcome) (message : String)
    (history : List (String × String)) (files : List String) :
    ∃ s, handle_chat env fs api message history files =
        (history ++ [(message, s)], []) ∧
      ((∃ e, (chat_with_claude env fs api message history files).result =
          .error e ∧ s = "Error: " ++ PyExc.str e ∧ s ≠ "") ∨
        (chat_with_claude env fs api message history files).result = .ok s) := by
  rcases h : (chat_with_claude env fs api message history files).result with e | t
  · exact ⟨"Error: " ++ PyExc.str e, by simp [handle_chat, h],
      .inl ⟨e, rfl, rfl, error_string_ne_empty _⟩⟩
  · exact ⟨t, by simp [handle_chat, h], .inr rfl⟩

/-- C10: whenever `process_attachments` succeeds, every produced
attachment carries a resolved MIME type (it is the `guess_type` result of
one of the input files) whose prefix is allow-listed; in particular the
`application/octet-stream` fallback is never the recorded media type. -/
theorem process_attachments_media_type_allowed (fs : FileSys)
    (files : List String) (atts : List Attachment)
    (h : (process_attachments fs files).1 = .ok atts) :
    ∀ a ∈ atts, (∃ f ∈ files, fs.guessType f = some a.media_type) ∧
      ALLOWED_MIME_TYPES.any
        (fun allowed => strStartsWith a.media_type allowed) = true ∧
      a.media_type ≠ "application/octet-stream" := by
  induction files generalizing atts with
  | nil =>
    simp only [process_attachments] at h
    cases h
    intro a ha
    simp at ha
  | cons f rest ih =>
    rcases hv : validate_file fs f with e | u
    · simp [process_attachments, hv] at h
    · cases u
      rcases hpr : process_attachments fs rest with ⟨res, log⟩
      cases res with
      | error e2 => simp [process_attachments, hv, hpr] at h
      | ok atts2 =>
        simp only [process_attachments, hv, hpr] at h
        cases h
        obtain ⟨hsize, m, hm, hany⟩ := validate_file_ok_inv fs f hv
        intro a ha
        simp only [List.mem_cons] at ha
        rcases ha with rfl | ha
        · have hmedia : ((fs.guessType f).getD "application/octet-stream" : String) = m := by
            rw [hm]
            rfl
          refine ⟨⟨f, by simp, ?_⟩, ?_, ?_⟩
          · simp only [hmedia]
            exact hm
          · simp only [hmedia]
            exact hany
          · simp only [hmedia]
            intro heq
            rw [heq] at hany
            exact absurd hany (by decide)
        · obtain ⟨⟨g, hg, hgm⟩, h2, h3⟩ := ih atts2 (by rw [hpr]) a ha
          exact ⟨⟨g, by simp [hg], hgm⟩, h2, h3⟩

/-- C10, witness: the single produced attachment of a `text/plain` file
has the resolved allow-listed media type. -/
theorem process_attachments_media_type_allowed_witness :
    (∃ f ∈ (["a.txt"] : List String),
      fsMixed.guessType f = some ("text/plain" : String)) ∧
    ALLOWED_MIME_TYPES.any
      (fun allowed => strStartsWith "text/plain" allowed) = true ∧
    ("text/plain" : String) ≠ "application/octet-stream" :=
  process_attachments_media_type_allowed fsMixed ["a.txt"]
    [{ type := "base64", media_type := "text/plain", data := "aGk=" }]
    (by decide)
    { type := "base64", media_type := "text/plain", data := "aGk=" }
    (by decide)
